import Mathlib

/-!
Verification of the Newton-Simulator core: a shallow embedding of the
sequential physics engine (services/physicsEngine.ts, the `PhysicsEngine`
class) and of the data-parallel compute kernel (services/webGpuEngine.ts,
the embedded compute shader), over the real numbers.  Each JavaScript
`Math.random()` draw is modelled as an abstract real supplied from the
outside, so every randomized operation takes an explicit stream of draws.
Float arithmetic is idealized as real arithmetic; `Math.sqrt` is
`Real.sqrt` and `Math.floor` is `Int.floor`.
-/

namespace NewtonSim

/-- The six palettes of types.ts (`ColorPalette`). -/
inductive ColorPalette
  | fireworks
  | cyberpunk
  | ocean
  | inferno
  | monochrome
  | emerald
deriving DecidableEq, Repr, Inhabited

/-- An hsla color value.  The source formats the four components into the
string `hsla(h, s%, l%, 1.0)`; the record keeps the same information. -/
structure Hsla where
  hue : ℝ
  saturation : ℝ
  lightness : ℝ
  alpha : ℝ
deriving Inhabited

/-- The `Particle` record of types.ts. -/
structure Particle where
  id : ℕ
  x : ℝ
  y : ℝ
  vx : ℝ
  vy : ℝ
  mass : ℝ
  radius : ℝ
  color : Hsla
deriving Inhabited

/-- The `SimulationConfig` record of types.ts. -/
structure SimulationConfig where
  G : ℝ
  friction : ℝ
  particleCount : ℕ
  collisionElasticity : ℝ
  trailLength : ℝ
  showTrails : Bool
  paused : Bool
  mouseStrength : ℝ
  palette : ColorPalette

/-- One particle worth of random draws consumed by `init`: two for the
mass product, two for the position, two for the velocity, and up to two
for the color (the cyberpunk branch draws once for the coin flip and once
for the hue). -/
structure Draws where
  m1 : ℝ
  m2 : ℝ
  px : ℝ
  py : ℝ
  v1 : ℝ
  v2 : ℝ
  c1 : ℝ
  c2 : ℝ

/-- `PhysicsEngine.generateColor`: palette to hsla sampling rule, with the
random draws passed in explicitly. -/
noncomputable def generateColor (palette : ColorPalette) (r1 r2 : ℝ) : Hsla :=
  match palette with
  | .fireworks => ⟨(⌊r1 * 360⌋ : ℤ), 100, 50, 1⟩
  | .cyberpunk =>
      if r1 > 0.5 then ⟨((⌊r2 * 40⌋ : ℤ) : ℝ) + 280, 100, 50, 1⟩
      else ⟨((⌊r2 * 40⌋ : ℤ) : ℝ) + 180, 100, 50, 1⟩
  | .ocean => ⟨((⌊r1 * 60⌋ : ℤ) : ℝ) + 170, 100, 50, 1⟩
  | .inferno => ⟨(⌊r1 * 50⌋ : ℤ), 100, 50, 1⟩
  | .emerald => ⟨((⌊r1 * 60⌋ : ℤ) : ℝ) + 100, 100, 50, 1⟩
  | .monochrome => ⟨0, 0, ((⌊r1 * 50⌋ : ℤ) : ℝ) + 50, 1⟩

/-- The particle built in one iteration of the loop of
`PhysicsEngine.init`: mass `r*r*25 + 2`, position uniform in the domain,
velocity in a symmetric unit range, radius derived as `sqrt(mass)*0.5`. -/
noncomputable def mkParticle (palette : ColorPalette) (w h : ℝ) (i : ℕ)
    (d : Draws) : Particle :=
  let mass := d.m1 * d.m2 * 25 + 2
  { id := i
    x := d.px * w
    y := d.py * h
    vx := (d.v1 - 0.5) * 2
    vy := (d.v2 - 0.5) * 2
    mass := mass
    radius := Real.sqrt mass * 0.5
    color := generateColor palette d.c1 d.c2 }

/-- `PhysicsEngine.init`: replaces the store with `particleCount` freshly
sampled particles. -/
noncomputable def init (cfg : SimulationConfig) (w h : ℝ)
    (draws : ℕ → Draws) : List Particle :=
  (List.range cfg.particleCount).map fun i => mkParticle cfg.palette w h i (draws i)

/-- `PhysicsEngine.refreshColors`: reassigns every color from the current
palette, leaving all other fields alone. -/
noncomputable def refreshColors (palette : ColorPalette) (draws : ℕ → Draws)
    (ps : List Particle) : List Particle :=
  (List.range ps.length).map fun i =>
    let p := ps.getD i default
    { p with color := generateColor palette (draws i).c1 (draws i).c2 }

/-- The engine state: the particle store, the stored configuration and the
domain bounds (fields of the `PhysicsEngine` class). -/
structure EngineState where
  particles : List Particle
  config : SimulationConfig
  width : ℝ
  height : ℝ

/-- `PhysicsEngine.setConfig`: records the new configuration, then
reinitializes when the store size disagrees with the requested count, else
recolors when the palette changed, else does nothing further. -/
noncomputable def setConfig (st : EngineState) (cfg : SimulationConfig)
    (draws : ℕ → Draws) : EngineState :=
  let prevCount := st.particles.length
  let prevPalette := st.config.palette
  if prevCount ≠ cfg.particleCount then
    { st with config := cfg, particles := init cfg st.width st.height draws }
  else if prevPalette ≠ cfg.palette then
    { st with config := cfg, particles := refreshColors cfg.palette draws st.particles }
  else
    { st with config := cfg }

/-- `PhysicsEngine.updateDimensions`: replaces the bounds only; particles
are not moved. -/
def updateDimensions (st : EngineState) (w h : ℝ) : EngineState :=
  { st with width := w, height := h }

/-- The body of the inner loop of `PhysicsEngine.step`: the force that
particle `p2` contributes to the accumulator of particle `p1`, under the
softened law `distSq = dx*dx + dy*dy + 20` and the division of each
component by `sqrt distSq`. -/
noncomputable def pairForce (G : ℝ) (p1 p2 : Particle) : ℝ × ℝ :=
  let dx := p2.x - p1.x
  let dy := p2.y - p1.y
  let distSq := dx * dx + dy * dy + 20
  let dist := Real.sqrt distSq
  let force := G * p1.mass * p2.mass / distSq
  (force * dx / dist, force * dy / dist)

/-- The accumulated force on the particle at index `i`: the inner `j` loop
of `PhysicsEngine.step`, skipping `j = i`. -/
noncomputable def forceOn (G : ℝ) (ps : List Particle) (i : ℕ) : ℝ × ℝ :=
  (List.range ps.length).foldl
    (fun acc j =>
      if j = i then acc
      else
        let f := pairForce G (ps.getD i default) (ps.getD j default)
        (acc.1 + f.1, acc.2 + f.2))
    (0, 0)

/-- The first loop of `PhysicsEngine.step`: every velocity gains
`force / mass`.  The source mutates velocities in place while iterating,
but the force computation reads only positions and masses, never
velocities, so the in-place update equals this map. -/
noncomputable def applyForces (G : ℝ) (ps : List Particle) : List Particle :=
  (List.range ps.length).map fun i =>
    let p := ps.getD i default
    let f := forceOn G ps i
    { p with vx := p.vx + f.1 / p.mass, vy := p.vy + f.2 / p.mass }

/-- One axis of the boundary clamp of `PhysicsEngine.step`, position part:
below `lo` the position snaps to `lo`, above `hi` it snaps to `hi`. -/
noncomputable def resolveAxisPos (lo hi x : ℝ) : ℝ :=
  if x < lo then lo else if x > hi then hi else x

/-- One axis of the boundary clamp of `PhysicsEngine.step`, velocity part:
on either collision the velocity is scaled by `-elasticity`. -/
noncomputable def resolveAxisVel (lo hi x v e : ℝ) : ℝ :=
  if x < lo then v * (-e) else if x > hi then v * (-e) else v

/-- The second loop of `PhysicsEngine.step` applied to one particle:
friction scales the velocity, the position advances by the damped
velocity, then each axis is clamped to `[radius, extent - radius]`
independently.  `ff` is the retained fraction `1 - friction`. -/
noncomputable def integrate (ff e w h : ℝ) (p : Particle) : Particle :=
  let vx := p.vx * ff
  let vy := p.vy * ff
  let x := p.x + vx
  let y := p.y + vy
  { p with
    x := resolveAxisPos p.radius (w - p.radius) x
    vx := resolveAxisVel p.radius (w - p.radius) x vx e
    y := resolveAxisPos p.radius (h - p.radius) y
    vy := resolveAxisVel p.radius (h - p.radius) y vy e }

/-- `PhysicsEngine.step`: a no-op while paused, otherwise force
accumulation followed by integration and boundary resolution. -/
noncomputable def step (cfg : SimulationConfig) (w h : ℝ)
    (ps : List Particle) : List Particle :=
  if cfg.paused then ps
  else (applyForces cfg.G ps).map
    (integrate (1 - cfg.friction) cfg.collisionElasticity w h)

/-- The loop body of `PhysicsEngine.applyAttractor` on one particle:
inverse square pull toward `(x, y)` with softening 100, the resulting
force divided by the mass. -/
noncomputable def attractParticle (x y strength : ℝ) (p : Particle) : Particle :=
  let dx := x - p.x
  let dy := y - p.y
  let distSq := dx * dx + dy * dy + 100
  let dist := Real.sqrt distSq
  let force := strength * p.mass / distSq
  { p with
    vx := p.vx + force * dx / dist / p.mass
    vy := p.vy + force * dy / dist / p.mass }

/-- `PhysicsEngine.applyAttractor`: a no-op while paused, otherwise the
point force applied to every particle. -/
noncomputable def applyAttractor (cfg : SimulationConfig) (x y strength : ℝ)
    (ps : List Particle) : List Particle :=
  if cfg.paused then ps else ps.map (attractParticle x y strength)

/-- One frame of the sequential strategy as App.tsx drives it: the
attractor when the mouse is active, then `step`. -/
noncomputable def seqTick (cfg : SimulationConfig) (w h mx my : ℝ)
    (active : Bool) (ps : List Particle) : List Particle :=
  let ps1 := if active then applyAttractor cfg mx my cfg.mouseStrength ps else ps
  step cfg w h ps1

/-- The particle record of the compute shader of webGpuEngine.ts:
position, velocity and mass (color and padding carry no physics). -/
structure GpuParticle where
  posx : ℝ
  posy : ℝ
  velx : ℝ
  vely : ℝ
  mass : ℝ
deriving Inhabited

/-- The `SimParams` uniform block of the compute shader. -/
structure SimParams where
  G : ℝ
  friction : ℝ
  mousex : ℝ
  mousey : ℝ
  mouseStrength : ℝ
  particleCount : ℕ
  width : ℝ
  height : ℝ
  dt : ℝ
  elasticity : ℝ

/-- The wgsl builtin normalize: the vector divided by its euclidean
length. -/
noncomputable def normalizev (dx dy : ℝ) : ℝ × ℝ :=
  let len := Real.sqrt (dx * dx + dy * dy)
  (dx / len, dy / len)

/-- The projection of a sequential particle onto the shader record. -/
def toGpu (p : Particle) : GpuParticle :=
  { posx := p.x, posy := p.y, velx := p.vx, vely := p.vy, mass := p.mass }

/-- The compute shader main function for one invocation `index`: mutual
gravity normalized by the true distance, the mouse force, acceleration
scaled by `dt`, friction, position update and boundary clamps with the
radius rederived as `sqrt(mass)*0.5`.  The y-boundary branch of the
shader writes the nonexistent member `p.vy`; it is modelled as the
evidently intended `p.vel.y`. -/
noncomputable def gpuKernel (params : SimParams) (ps : List GpuParticle)
    (index : ℕ) : GpuParticle :=
  let p := ps.getD index default
  if index ≥ params.particleCount then p
  else
    let tf := (List.range params.particleCount).foldl
      (fun acc i =>
        if i = index then acc
        else
          let other := ps.getD i default
          let dx := other.posx - p.posx
          let dy := other.posy - p.posy
          let distSq := dx * dx + dy * dy + 20
          let forceMag := params.G * p.mass * other.mass / distSq
          let nv := normalizev dx dy
          (acc.1 + nv.1 * forceMag, acc.2 + nv.2 * forceMag))
      (0, 0)
    let mdx := params.mousex - p.posx
    let mdy := params.mousey - p.posy
    let mouseDistSq := mdx * mdx + mdy * mdy + 100
    let mouseForceMag := params.mouseStrength * p.mass / mouseDistSq
    let mn := normalizev mdx mdy
    let tfx := tf.1 + mn.1 * mouseForceMag
    let tfy := tf.2 + mn.2 * mouseForceMag
    let vx := (p.velx + tfx / p.mass * params.dt) * (1 - params.friction)
    let vy := (p.vely + tfy / p.mass * params.dt) * (1 - params.friction)
    let x := p.posx + vx
    let y := p.posy + vy
    let radius := Real.sqrt p.mass * 0.5
    { posx := resolveAxisPos radius (params.width - radius) x
      posy := resolveAxisPos radius (params.height - radius) y
      velx := resolveAxisVel radius (params.width - radius) x vx params.elasticity
      vely := resolveAxisVel radius (params.height - radius) y vy params.elasticity
      mass := p.mass }

/-- One frame of the parallel strategy as `WebGpuEngine.render` dispatches
it: the parameter block carries `dt = 0.5` and a mouse strength gated by
activity; the compute pass is skipped while paused. -/
noncomputable def gpuTick (cfg : SimulationConfig) (w h mx my : ℝ)
    (active : Bool) (ps : List GpuParticle) : List GpuParticle :=
  if cfg.paused then ps
  else
    let params : SimParams :=
      { G := cfg.G
        friction := cfg.friction
        mousex := mx
        mousey := my
        mouseStrength := if active then cfg.mouseStrength else 0
        particleCount := cfg.particleCount
        width := w
        height := h
        dt := 0.5
        elasticity := cfg.collisionElasticity }
    (List.range ps.length).map (gpuKernel params ps)

/-! ## Helper lemmas -/

lemma getD_range_map {α : Type} (f : ℕ → α) (n i : ℕ) (d : α) (h : i < n) :
    ((List.range n).map f).getD i d = f i := by
  rw [List.getD_eq_getElem _ d (by simpa using h)]
  simp

/-- A concrete engine configuration with the paused gate set, used as a
witness state. -/
noncomputable def pausedCfg : SimulationConfig :=
  { G := 1, friction := 0, particleCount := 1, collisionElasticity := 0.7,
    trailLength := 0, showTrails := false, paused := true, mouseStrength := 0,
    palette := .fireworks }

/-- A concrete particle used in witness states. -/
noncomputable def someParticle : Particle :=
  { id := 0, x := 3, y := 4, vx := 1, vy := 2, mass := 5, radius := 1,
    color := ⟨0, 100, 50, 1⟩ }

/-! ## Claims -/

/-- C3: for every pair of particles, the force contribution that the
accumulation loop of one computes from the other is equal in magnitude
and opposite in direction to the reversed contribution, under the
softened law. -/
theorem c3_third_law (G : ℝ) (p q : Particle) :
    (pairForce G p q).1 = -((pairForce G q p).1) ∧
    (pairForce G p q).2 = -((pairForce G q p).2) := by
  have hd : (p.x - q.x) * (p.x - q.x) + (p.y - q.y) * (p.y - q.y) + 20
      = (q.x - p.x) * (q.x - p.x) + (q.y - p.y) * (q.y - p.y) + 20 := by ring
  constructor <;>
  · simp only [pairForce]
    rw [hd]
    ring

/-- C5: while the paused flag is set, `step`, `applyAttractor`, and any
number of repetitions of the two leave the particle list unchanged. -/
theorem c5_paused (cfg : SimulationConfig) (w h x y s : ℝ) (ps : List Particle)
    (k : ℕ) (hp : cfg.paused = true) :
    step cfg w h ps = ps ∧ applyAttractor cfg x y s ps = ps ∧
    (fun l => step cfg w h (applyAttractor cfg x y s l))^[k] ps = ps := by
  refine ⟨by simp [step, hp], by simp [applyAttractor, hp], ?_⟩
  apply Function.iterate_fixed
  simp [step, applyAttractor, hp]

/-- Witness for C5 at a concrete paused state and three repetitions. -/
theorem c5_paused_w :
    pausedCfg.paused = true ∧
    (step pausedCfg 100 100 [someParticle] = [someParticle] ∧
     applyAttractor pausedCfg 7 8 9 [someParticle] = [someParticle] ∧
     (fun l => step pausedCfg 100 100 (applyAttractor pausedCfg 7 8 9 l))^[3]
       [someParticle] = [someParticle]) :=
  ⟨rfl, c5_paused pausedCfg 100 100 7 8 9 [someParticle] 3 rfl⟩

/-- C6: `init` produces exactly `particleCount` particles, and each one
carries radius `sqrt(mass) * 0.5`. -/
theorem c6_init (cfg : SimulationConfig) (w h : ℝ) (draws : ℕ → Draws) :
    (init cfg w h draws).length = cfg.particleCount ∧
    ∀ p ∈ init cfg w h draws, p.radius = Real.sqrt p.mass * 0.5 := by
  refine ⟨by simp [init], ?_⟩
  intro p hp
  simp only [init, List.mem_map, List.mem_range] at hp
  obtain ⟨i, _, rfl⟩ := hp
  rfl

/-- C10: the velocity change of the attractor on a particle of nonzero
mass does not depend on the mass: each component equals
`strength * d / (distSq * dist)`. -/
theorem c10_attractor_mass_free (x y s : ℝ) (p : Particle) (hm : p.mass ≠ 0) :
    (attractParticle x y s p).vx
      = p.vx + s * (x - p.x) /
        (((x - p.x) * (x - p.x) + (y - p.y) * (y - p.y) + 100) *
          Real.sqrt ((x - p.x) * (x - p.x) + (y - p.y) * (y - p.y) + 100)) ∧
    (attractParticle x y s p).vy
      = p.vy + s * (y - p.y) /
        (((x - p.x) * (x - p.x) + (y - p.y) * (y - p.y) + 100) *
          Real.sqrt ((x - p.x) * (x - p.x) + (y - p.y) * (y - p.y) + 100)) := by
  have hq : (0:ℝ) < (x - p.x) * (x - p.x) + (y - p.y) * (y - p.y) + 100 := by
    nlinarith [mul_self_nonneg (x - p.x), mul_self_nonneg (y - p.y)]
  have hd : (0:ℝ) <
      Real.sqrt ((x - p.x) * (x - p.x) + (y - p.y) * (y - p.y) + 100) :=
    Real.sqrt_pos.mpr hq
  constructor <;>
  · simp only [attractParticle]
    field_simp
    ring

/-- Witness for C10 at a concrete particle of mass 2 and attractor
point (5, 6) with strength 7. -/
theorem c10_attractor_mass_free_w :
    someParticle.mass ≠ 0 ∧
    ((attractParticle 5 6 7 someParticle).vx
      = someParticle.vx + 7 * (5 - someParticle.x) /
        (((5 - someParticle.x) * (5 - someParticle.x) +
            (6 - someParticle.y) * (6 - someParticle.y) + 100) *
          Real.sqrt ((5 - someParticle.x) * (5 - someParticle.x) +
            (6 - someParticle.y) * (6 - someParticle.y) + 100)) ∧
     (attractParticle 5 6 7 someParticle).vy
      = someParticle.vy + 7 * (6 - someParticle.y) /
        (((5 - someParticle.x) * (5 - someParticle.x) +
            (6 - someParticle.y) * (6 - someParticle.y) + 100) *
          Real.sqrt ((5 - someParticle.x) * (5 - someParticle.x) +
            (6 - someParticle.y) * (6 - someParticle.y) + 100))) :=
  ⟨by norm_num [someParticle],
   c10_attractor_mass_free 5 6 7 someParticle (by norm_num [someParticle])⟩

lemma forceOn_single (G : ℝ) (p : Particle) : forceOn G [p] 0 = (0, 0) := by
  simp [forceOn, List.range_succ]

lemma applyForces_single (G : ℝ) (p : Particle) : applyForces G [p] = [p] := by
  simp [applyForces, List.range_succ, forceOn_single]

/-- C9: an unpaused particle alone in the store, sitting one unit past the
left wall with inbound velocity -2, is clamped to `x = radius` with the
velocity reflected and halved to +1 by elasticity 0.5, after one step with
friction 0. -/
theorem c9_bounce (cfg : SimulationConfig) (w h : ℝ) (p : Particle)
    (hp : cfg.paused = false) (hf : cfg.friction = 0)
    (he : cfg.collisionElasticity = 0.5)
    (hx : p.x = p.radius - 1) (hv : p.vx = -2) :
    ((step cfg w h [p]).getD 0 default).x = p.radius ∧
    ((step cfg w h [p]).getD 0 default).vx = 1 := by
  have hstep : step cfg w h [p]
      = [integrate (1 - cfg.friction) cfg.collisionElasticity w h p] := by
    simp [step, hp, applyForces_single]
  rw [hstep]
  simp only [List.getD_cons_zero]
  have hcond : p.x + p.vx * (1 - cfg.friction) < p.radius := by
    rw [hx, hv, hf]; linarith
  constructor
  · show resolveAxisPos p.radius (w - p.radius)
      (p.x + p.vx * (1 - cfg.friction)) = p.radius
    rw [resolveAxisPos, if_pos hcond]
  · show resolveAxisVel p.radius (w - p.radius)
      (p.x + p.vx * (1 - cfg.friction)) (p.vx * (1 - cfg.friction))
      cfg.collisionElasticity = 1
    rw [resolveAxisVel, if_pos hcond, hv, hf, he]
    norm_num

/-- A concrete configuration for the bounce witness. -/
noncomputable def c9cfg : SimulationConfig :=
  { G := 1, friction := 0, particleCount := 1, collisionElasticity := 0.5,
    trailLength := 0, showTrails := false, paused := false, mouseStrength := 0,
    palette := .fireworks }

/-- A concrete particle one unit past the left wall. -/
noncomputable def c9p : Particle :=
  { id := 0, x := 4, y := 50, vx := -2, vy := 0, mass := 5, radius := 5,
    color := ⟨0, 100, 50, 1⟩ }

/-- Witness for C9 at the concrete bounce state. -/
theorem c9_bounce_w :
    (c9cfg.paused = false ∧ c9cfg.friction = 0 ∧
     c9cfg.collisionElasticity = 0.5 ∧ c9p.x = c9p.radius - 1 ∧ c9p.vx = -2) ∧
    (((step c9cfg 100 100 [c9p]).getD 0 default).x = c9p.radius ∧
     ((step c9cfg 100 100 [c9p]).getD 0 default).vx = 1) :=
  ⟨⟨rfl, rfl, rfl, by norm_num [c9p], rfl⟩,
   c9_bounce c9cfg 100 100 c9p rfl rfl rfl (by norm_num [c9p]) rfl⟩

/-- C7: a configuration change that keeps the particle count and changes
the palette keeps the number of particles and every field of every
particle except the color, which is reassigned from the new palette. -/
theorem c7_recolor (st : EngineState) (cfg : SimulationConfig)
    (draws : ℕ → Draws)
    (hlen : st.particles.length = st.config.particleCount)
    (hcount : cfg.particleCount = st.config.particleCount)
    (hpal : cfg.palette ≠ st.config.palette) :
    (setConfig st cfg draws).particles.length = st.particles.length ∧
    ∀ i < st.particles.length,
      (setConfig st cfg draws).particles.getD i default
        = { st.particles.getD i default with
            color := generateColor cfg.palette (draws i).c1 (draws i).c2 } := by
  have hlc : st.particles.length = cfg.particleCount := hlen.trans hcount.symm
  have hsc : setConfig st cfg draws
      = { st with config := cfg,
                  particles := refreshColors cfg.palette draws st.particles } := by
    simp only [setConfig]
    rw [if_neg (not_not_intro hlc), if_pos (Ne.symm hpal)]
  rw [hsc]
  refine ⟨by simp [refreshColors], ?_⟩
  intro i hi
  simp only [refreshColors]
  rw [getD_range_map _ _ _ _ hi]

/-- The old configuration for the reconfiguration witnesses. -/
noncomputable def c8cfgOld : SimulationConfig :=
  { G := 1, friction := 0, particleCount := 1, collisionElasticity := 0.7,
    trailLength := 0, showTrails := false, paused := false, mouseStrength := 0,
    palette := .fireworks }

/-- A new configuration differing from the old only in G. -/
noncomputable def c8cfgNew : SimulationConfig := { c8cfgOld with G := 2 }

/-- A new configuration differing from the old only in the palette. -/
noncomputable def c7cfgNew : SimulationConfig := { c8cfgOld with palette := .ocean }

/-- A concrete engine state holding one particle. -/
noncomputable def c8st : EngineState :=
  { particles := [someParticle], config := c8cfgOld, width := 100, height := 100 }

/-- A concrete stream of draws. -/
noncomputable def zeroDraws : ℕ → Draws := fun _ => ⟨0, 0, 0, 0, 0, 0, 0, 0⟩

/-- Witness for C7: recoloring the one-particle state from fireworks to
ocean. -/
theorem c7_recolor_w :
    (c8st.particles.length = c8st.config.particleCount ∧
     c7cfgNew.particleCount = c8st.config.particleCount ∧
     c7cfgNew.palette ≠ c8st.config.palette) ∧
    ((setConfig c8st c7cfgNew zeroDraws).particles.length
        = c8st.particles.length ∧
     ∀ i < c8st.particles.length,
       (setConfig c8st c7cfgNew zeroDraws).particles.getD i default
         = { c8st.particles.getD i default with
             color := generateColor c7cfgNew.palette (zeroDraws i).c1
               (zeroDraws i).c2 }) :=
  ⟨⟨rfl, rfl, by decide⟩,
   c7_recolor c8st c7cfgNew zeroDraws rfl rfl (by decide)⟩

/-- C8: `setConfig` always installs the new configuration and keeps the
domain; it regenerates the store exactly when the requested count differs
from the current store size, recolors exactly when only the palette
differs, and otherwise leaves the particle list untouched. -/
theorem c8_config_only (st : EngineState) (cfg : SimulationConfig)
    (draws : ℕ → Draws) :
    (setConfig st cfg draws).config = cfg ∧
    (setConfig st cfg draws).width = st.width ∧
    (setConfig st cfg draws).height = st.height ∧
    (st.particles.length ≠ cfg.particleCount →
      (setConfig st cfg draws).particles = init cfg st.width st.height draws) ∧
    (st.particles.length = cfg.particleCount →
      st.config.palette ≠ cfg.palette →
      (setConfig st cfg draws).particles
        = refreshColors cfg.palette draws st.particles) ∧
    (st.particles.length = cfg.particleCount →
      st.config.palette = cfg.palette →
      (setConfig st cfg draws).particles = st.particles) := by
  simp only [setConfig]
  by_cases h1 : st.particles.length ≠ cfg.particleCount
  · rw [if_pos h1]
    exact ⟨rfl, rfl, rfl, fun _ => rfl, fun h _ => absurd h h1, fun h _ => absurd h h1⟩
  · rw [if_neg h1]
    by_cases h2 : st.config.palette ≠ cfg.palette
    · rw [if_pos h2]
      exact ⟨rfl, rfl, rfl, fun hc => absurd hc h1, fun _ _ => rfl,
        fun _ hp => absurd hp h2⟩
    · rw [if_neg h2]
      push_neg at h2
      exact ⟨rfl, rfl, rfl, fun hc => absurd hc h1,
        fun _ hp => absurd h2 hp, fun _ _ => rfl⟩

/-- Witness for C8: changing only G on the one-particle state leaves the
store untouched and installs the new configuration. -/
theorem c8_config_only_w :
    (c8st.particles.length = c8cfgNew.particleCount ∧
     c8st.config.palette = c8cfgNew.palette) ∧
    ((setConfig c8st c8cfgNew zeroDraws).particles = c8st.particles ∧
     (setConfig c8st c8cfgNew zeroDraws).config = c8cfgNew) :=
  ⟨⟨rfl, rfl⟩,
   ⟨(c8_config_only c8st c8cfgNew zeroDraws).2.2.2.2.2 rfl rfl,
    (c8_config_only c8st c8cfgNew zeroDraws).1⟩⟩

lemma resolveAxisPos_mem (lo hi x : ℝ) (h : lo ≤ hi) :
    lo ≤ resolveAxisPos lo hi x ∧ resolveAxisPos lo hi x ≤ hi := by
  rw [resolveAxisPos]
  split_ifs with h1 h2
  · exact ⟨le_refl lo, h⟩
  · exact ⟨h, le_refl hi⟩
  · exact ⟨le_of_not_lt h1, le_of_not_gt h2⟩

lemma applyForces_radius {G : ℝ} {ps : List Particle} {q : Particle}
    (hq : q ∈ applyForces G ps) :
    ∃ i, i < ps.length ∧ q.radius = (ps.getD i default).radius := by
  simp only [applyForces, List.mem_map, List.mem_range] at hq
  obtain ⟨i, hi, rfl⟩ := hq
  exact ⟨i, hi, rfl⟩

/-- A particle far outside a 10 by 10 domain, as left behind by a domain
resize. -/
noncomputable def c4pOut : Particle :=
  { id := 0, x := 50, y := 50, vx := 0, vy := 0, mass := 4, radius := 1,
    color := ⟨0, 100, 50, 1⟩ }

/-- Counterexample to C4: when the tick is a paused no-op, a particle left
outside the domain by a resize stays outside, so the bound fails after
this tick. -/
theorem c4_cex :
    ¬ ∀ q ∈ step pausedCfg 10 10 [c4pOut],
        q.radius ≤ q.x ∧ q.x ≤ 10 - q.radius ∧
        q.radius ≤ q.y ∧ q.y ≤ 10 - q.radius := by
  intro hall
  have hmem : c4pOut ∈ step pausedCfg 10 10 [c4pOut] := by
    simp [step, pausedCfg]
  have hx := (hall c4pOut hmem).2.1
  norm_num [c4pOut] at hx

/-- C4 amended: after an unpaused step of a store in which the diameter of
each particle fits the domain, every particle lies within
`[radius, width - radius]` and `[radius, height - radius]`. -/
theorem c4_bounds (cfg : SimulationConfig) (w h : ℝ) (ps : List Particle)
    (hp : cfg.paused = false)
    (hfit : ∀ p ∈ ps, 2 * p.radius ≤ w ∧ 2 * p.radius ≤ h) :
    ∀ q ∈ step cfg w h ps,
      q.radius ≤ q.x ∧ q.x ≤ w - q.radius ∧
      q.radius ≤ q.y ∧ q.y ≤ h - q.radius := by
  intro q hq
  rw [step] at hq
  rw [hp] at hq
  simp only [Bool.false_eq_true, if_false, List.mem_map] at hq
  obtain ⟨q0, hq0, rfl⟩ := hq
  obtain ⟨i, hi, hrad⟩ := applyForces_radius hq0
  have hmem : ps.getD i default ∈ ps := by
    rw [List.getD_eq_getElem _ _ hi]
    exact List.getElem_mem _
  obtain ⟨hw, hh⟩ := hfit _ hmem
  have h1 : q0.radius ≤ w - q0.radius := by rw [hrad]; linarith
  have h2 : q0.radius ≤ h - q0.radius := by rw [hrad]; linarith
  set ff := 1 - cfg.friction
  refine ⟨?_, ?_, ?_, ?_⟩
  · show q0.radius ≤ resolveAxisPos q0.radius (w - q0.radius) (q0.x + q0.vx * ff)
    exact (resolveAxisPos_mem _ _ _ h1).1
  · show resolveAxisPos q0.radius (w - q0.radius) (q0.x + q0.vx * ff)
      ≤ w - q0.radius
    exact (resolveAxisPos_mem _ _ _ h1).2
  · show q0.radius ≤ resolveAxisPos q0.radius (h - q0.radius) (q0.y + q0.vy * ff)
    exact (resolveAxisPos_mem _ _ _ h2).1
  · show resolveAxisPos q0.radius (h - q0.radius) (q0.y + q0.vy * ff)
      ≤ h - q0.radius
    exact (resolveAxisPos_mem _ _ _ h2).2

/-- Witness for the amended C4 on a concrete unpaused one-particle
state. -/
theorem c4_bounds_w :
    (c9cfg.paused = false ∧
     (∀ p ∈ [someParticle], 2 * p.radius ≤ (100:ℝ) ∧ 2 * p.radius ≤ (100:ℝ))) ∧
    ∀ q ∈ step c9cfg 100 100 [someParticle],
      q.radius ≤ q.x ∧ q.x ≤ 100 - q.radius ∧
      q.radius ≤ q.y ∧ q.y ≤ 100 - q.radius :=
  ⟨⟨rfl, by
      intro p hp
      simp only [List.mem_singleton] at hp
      subst hp
      norm_num [someParticle]⟩,
   c4_bounds c9cfg 100 100 [someParticle] rfl (by
      intro p hp
      simp only [List.mem_singleton] at hp
      subst hp
      norm_num [someParticle])⟩

lemma step_unpaused (cfg : SimulationConfig) (w h : ℝ) (ps : List Particle)
    (hp : cfg.paused = false) :
    step cfg w h ps = (applyForces cfg.G ps).map
      (integrate (1 - cfg.friction) cfg.collisionElasticity w h) := by
  rw [step, hp]
  simp

lemma applyForces_pair (G : ℝ) (p q : Particle) :
    applyForces G [p, q] =
      [{ p with vx := p.vx + (pairForce G p q).1 / p.mass,
                vy := p.vy + (pairForce G p q).2 / p.mass },
       { q with vx := q.vx + (pairForce G q p).1 / q.mass,
                vy := q.vy + (pairForce G q p).2 / q.mass }] := by
  simp [applyForces, forceOn, List.range_succ]

lemma integrate_interior (ff e w h : ℝ) (p : Particle)
    (h1 : ¬ p.x + p.vx * ff < p.radius)
    (h2 : ¬ p.x + p.vx * ff > w - p.radius)
    (h3 : ¬ p.y + p.vy * ff < p.radius)
    (h4 : ¬ p.y + p.vy * ff > h - p.radius) :
    integrate ff e w h p
      = { p with x := p.x + p.vx * ff, y := p.y + p.vy * ff,
                 vx := p.vx * ff, vy := p.vy * ff } := by
  simp only [integrate, resolveAxisPos, resolveAxisVel,
    if_neg h1, if_neg h2, if_neg h3, if_neg h4]

lemma sqrt45_pos : (0:ℝ) < Real.sqrt 45 := Real.sqrt_pos.mpr (by norm_num)

lemma sqrt45_gt : (6:ℝ) < Real.sqrt 45 :=
  (Real.lt_sqrt (by norm_num)).mpr (by norm_num)

lemma sqrt10_lt : Real.sqrt 10 < 4 :=
  (Real.sqrt_lt' (by norm_num)).mpr (by norm_num)

lemma sqrt20_lt : Real.sqrt 20 < 5 :=
  (Real.sqrt_lt' (by norm_num)).mpr (by norm_num)

/-- The configuration of the two body scenario: G 1, friction 0,
unpaused. -/
noncomputable def c1cfg : SimulationConfig :=
  { G := 1, friction := 0, particleCount := 2, collisionElasticity := 0.7,
    trailLength := 0, showTrails := false, paused := false, mouseStrength := 0,
    palette := .fireworks }

/-- The mass 10 particle of the two body scenario, resting mid domain. -/
noncomputable def c1p1 : Particle :=
  { id := 0, x := 500, y := 500, vx := 0, vy := 0, mass := 10,
    radius := Real.sqrt 10 * 0.5, color := ⟨0, 100, 50, 1⟩ }

/-- The mass 20 particle of the two body scenario, displaced by (3, 4). -/
noncomputable def c1p2 : Particle :=
  { id := 1, x := 503, y := 504, vx := 0, vy := 0, mass := 20,
    radius := Real.sqrt 20 * 0.5, color := ⟨0, 100, 50, 1⟩ }

lemma c1_dv : (pairForce 1 c1p1 c1p2).1 / c1p1.mass = 4 / (3 * Real.sqrt 45) ∧
    (pairForce 1 c1p1 c1p2).2 / c1p1.mass = 16 / (9 * Real.sqrt 45) ∧
    (pairForce 1 c1p2 c1p1).1 / c1p2.mass = -(2 / (3 * Real.sqrt 45)) ∧
    (pairForce 1 c1p2 c1p1).2 / c1p2.mass = -(8 / (9 * Real.sqrt 45)) := by
  have hs : Real.sqrt 45 ≠ 0 := ne_of_gt sqrt45_pos
  refine ⟨?_, ?_, ?_, ?_⟩ <;>
  · simp only [pairForce, c1p1, c1p2]
    norm_num
    field_simp
    ring

/-- The post force state of the first scenario particle. -/
noncomputable def c1a : Particle :=
  { c1p1 with vx := 4 / (3 * Real.sqrt 45), vy := 16 / (9 * Real.sqrt 45) }

/-- The post force state of the second scenario particle. -/
noncomputable def c1b : Particle :=
  { c1p2 with vx := -(2 / (3 * Real.sqrt 45)), vy := -(8 / (9 * Real.sqrt 45)) }

lemma c1_after_forces : applyForces 1 [c1p1, c1p2] = [c1a, c1b] := by
  rw [applyForces_pair]
  obtain ⟨h1, h2, h3, h4⟩ := c1_dv
  rw [h1, h2, h3, h4, c1a, c1b]
  have hv1 : c1p1.vx = 0 := rfl
  have hv2 : c1p1.vy = 0 := rfl
  have hv3 : c1p2.vx = 0 := rfl
  have hv4 : c1p2.vy = 0 := rfl
  rw [hv1, hv2, hv3, hv4]
  norm_num

lemma c1_step : step c1cfg 1000 1000 [c1p1, c1p2]
    = [{ c1a with x := c1a.x + c1a.vx, y := c1a.y + c1a.vy },
       { c1b with x := c1b.x + c1b.vx, y := c1b.y + c1b.vy }] := by
  have hv1x_pos : (0:ℝ) < 4 / (3 * Real.sqrt 45) := by positivity
  have hv1x_lt : 4 / (3 * Real.sqrt 45) < 1 := by
    rw [div_lt_one (by positivity)]
    nlinarith [sqrt45_gt]
  have hv1y_pos : (0:ℝ) < 16 / (9 * Real.sqrt 45) := by positivity
  have hv1y_lt : 16 / (9 * Real.sqrt 45) < 1 := by
    rw [div_lt_one (by positivity)]
    nlinarith [sqrt45_gt]
  have hv2x_pos : (0:ℝ) < 2 / (3 * Real.sqrt 45) := by positivity
  have hv2x_lt : 2 / (3 * Real.sqrt 45) < 1 := by
    rw [div_lt_one (by positivity)]
    nlinarith [sqrt45_gt]
  have hv2y_pos : (0:ℝ) < 8 / (9 * Real.sqrt 45) := by positivity
  have hv2y_lt : 8 / (9 * Real.sqrt 45) < 1 := by
    rw [div_lt_one (by positivity)]
    nlinarith [sqrt45_gt]
  have hr10 : Real.sqrt 10 * 0.5 < 2 := by nlinarith [sqrt10_lt]
  have hr10' : (0:ℝ) ≤ Real.sqrt 10 * 0.5 := by positivity
  have hr20 : Real.sqrt 20 * 0.5 < 3 := by nlinarith [sqrt20_lt]
  have hr20' : (0:ℝ) ≤ Real.sqrt 20 * 0.5 := by positivity
  have h0 : step c1cfg 1000 1000 [c1p1, c1p2]
      = (applyForces 1 [c1p1, c1p2]).map (integrate 1 0.7 1000 1000) := by
    rw [step_unpaused _ _ _ _ rfl]
    norm_num [c1cfg]
  rw [h0, c1_after_forces, List.map_cons, List.map_cons, List.map_nil]
  have ha : integrate 1 0.7 1000 1000 c1a
      = { c1a with x := c1a.x + c1a.vx * 1, y := c1a.y + c1a.vy * 1,
                   vx := c1a.vx * 1, vy := c1a.vy * 1 } := by
    apply integrate_interior <;>
    · simp only [c1a, c1p1]
      push_neg
      norm_num
      linarith
  have hb : integrate 1 0.7 1000 1000 c1b
      = { c1b with x := c1b.x + c1b.vx * 1, y := c1b.y + c1b.vy * 1,
                   vx := c1b.vx * 1, vy := c1b.vy * 1 } := by
    apply integrate_interior <;>
    · simp only [c1b, c1p2]
      push_neg
      norm_num
      linarith
  rw [ha, hb]
  norm_num

lemma sqrt45_ne_five : Real.sqrt 45 ≠ 5 := by
  intro h
  have h45 := Real.sq_sqrt (show (0:ℝ) ≤ 45 by norm_num)
  rw [h] at h45
  norm_num at h45

/-- Counterexample to C1: in the two body scenario the velocity increment
of the mass 10 particle along x is not `(force magnitude / mass) * (3/5)`
as the claim computes it, because the engine divides each force component
by the softened distance `sqrt 45`, not by the true distance 5. -/
theorem c1_cex :
    ¬ ((step c1cfg 1000 1000 [c1p1, c1p2]).getD 0 default).vx
        = c1cfg.G * c1p1.mass * c1p2.mass / 45 / c1p1.mass * (3 / 5) := by
  rw [c1_step]
  intro h
  simp only [List.getD_cons_zero] at h
  have hx : c1a.vx = 4 / (3 * Real.sqrt 45) := rfl
  rw [hx] at h
  norm_num [c1cfg, c1p1, c1p2] at h
  apply sqrt45_ne_five
  have hs := sqrt45_pos
  field_simp at h
  linarith

/-- C1 amended: the two body scenario with G 1 and friction 0 gives each
particle, in one tick, the velocity increment
`(G * m1 * m2 / 45) * (dx, dy) / sqrt 45 / m`: the direction is along
(3, 4) for the mass 10 particle and opposite for the mass 20 particle,
but the magnitude carries the softened normalization `sqrt 45` in place
of the true distance 5. -/
theorem c1_softened :
    ((step c1cfg 1000 1000 [c1p1, c1p2]).getD 0 default).vx
        = c1cfg.G * c1p1.mass * c1p2.mass / 45 * 3 / Real.sqrt 45 / c1p1.mass ∧
    ((step c1cfg 1000 1000 [c1p1, c1p2]).getD 0 default).vy
        = c1cfg.G * c1p1.mass * c1p2.mass / 45 * 4 / Real.sqrt 45 / c1p1.mass ∧
    ((step c1cfg 1000 1000 [c1p1, c1p2]).getD 1 default).vx
        = -(c1cfg.G * c1p1.mass * c1p2.mass / 45 * 3 / Real.sqrt 45 / c1p2.mass) ∧
    ((step c1cfg 1000 1000 [c1p1, c1p2]).getD 1 default).vy
        = -(c1cfg.G * c1p1.mass * c1p2.mass / 45 * 4 / Real.sqrt 45 / c1p2.mass) := by
  rw [c1_step]
  have hs : Real.sqrt 45 ≠ 0 := ne_of_gt sqrt45_pos
  refine ⟨?_, ?_, ?_, ?_⟩ <;>
  · simp only [List.getD_cons_zero, List.getD_cons_succ]
    show _ = _
    simp only [c1a, c1b, c1cfg, c1p1, c1p2]
    norm_num
    field_simp
    ring

lemma sqrt125_pos : (0:ℝ) < Real.sqrt 125 := Real.sqrt_pos.mpr (by norm_num)

lemma sqrt125_gt : (11:ℝ) < Real.sqrt 125 :=
  (Real.lt_sqrt (by norm_num)).mpr (by norm_num)

lemma sqrt125_ne_ten : Real.sqrt 125 ≠ 10 := by
  intro h
  have h125 := Real.sq_sqrt (show (0:ℝ) ≤ 125 by norm_num)
  rw [h] at h125
  norm_num at h125

lemma sqrt25 : Real.sqrt 25 = 5 := by
  rw [show (25:ℝ) = 5 ^ 2 by norm_num]
  exact Real.sqrt_sq (by norm_num)

/-- The configuration of the strategy comparison scenario: one particle,
friction 0, mouse strength 1250. -/
noncomputable def c2cfg : SimulationConfig :=
  { G := 1, friction := 0, particleCount := 1, collisionElasticity := 0.7,
    trailLength := 0, showTrails := false, paused := false,
    mouseStrength := 1250, palette := .fireworks }

/-- The single particle of the strategy comparison scenario, of mass 1 at
rest mid domain, with the mouse attractor active at displacement
(3, 4). -/
noncomputable def c2p : Particle :=
  { id := 0, x := 500, y := 500, vx := 0, vy := 0, mass := 1,
    radius := Real.sqrt 1 * 0.5, color := ⟨0, 100, 50, 1⟩ }

/-- The comparison particle after the sequential attractor pass. -/
noncomputable def c2q : Particle :=
  { c2p with vx := 30 / Real.sqrt 125, vy := 40 / Real.sqrt 125 }

lemma c2_attract : attractParticle 503 504 1250 c2p = c2q := by
  have hs : Real.sqrt 125 ≠ 0 := ne_of_gt sqrt125_pos
  simp only [attractParticle, c2p, c2q, Particle.mk.injEq]
  norm_num

lemma c2_seq : seqTick c2cfg 1000 1000 503 504 true [c2p]
    = [{ c2q with x := c2q.x + c2q.vx, y := c2q.y + c2q.vy }] := by
  have hvx_pos : (0:ℝ) < 30 / Real.sqrt 125 := by positivity
  have hvx_lt : 30 / Real.sqrt 125 < 3 := by
    rw [div_lt_iff₀ sqrt125_pos]
    nlinarith [sqrt125_gt]
  have hvy_pos : (0:ℝ) < 40 / Real.sqrt 125 := by positivity
  have hvy_lt : 40 / Real.sqrt 125 < 4 := by
    rw [div_lt_iff₀ sqrt125_pos]
    nlinarith [sqrt125_gt]
  have happ : applyAttractor c2cfg 503 504 1250 [c2p] = [c2q] := by
    rw [applyAttractor, if_neg (by simp [c2cfg])]
    rw [List.map_cons, List.map_nil, c2_attract]
  have h0 : seqTick c2cfg 1000 1000 503 504 true [c2p]
      = step c2cfg 1000 1000 (applyAttractor c2cfg 503 504 c2cfg.mouseStrength
          [c2p]) := rfl
  rw [h0, show c2cfg.mouseStrength = (1250:ℝ) from rfl, happ,
    step_unpaused _ _ _ _ rfl, applyForces_single, List.map_cons, List.map_nil]
  have hi : integrate (1 - c2cfg.friction) c2cfg.collisionElasticity 1000 1000 c2q
      = { c2q with x := c2q.x + c2q.vx * (1 - c2cfg.friction),
                   y := c2q.y + c2q.vy * (1 - c2cfg.friction),
                   vx := c2q.vx * (1 - c2cfg.friction),
                   vy := c2q.vy * (1 - c2cfg.friction) } := by
    apply integrate_interior <;>
    · simp only [c2q, c2p, c2cfg]
      push_neg
      norm_num [Real.sqrt_one]
      linarith
  rw [hi]
  have hff : (1:ℝ) - c2cfg.friction = 1 := by norm_num [c2cfg]
  rw [hff]
  norm_num

lemma c2_kernel : gpuKernel
    { G := 1, friction := 0, mousex := 503, mousey := 504, mouseStrength := 1250,
      particleCount := 1, width := 1000, height := 1000, dt := 0.5,
      elasticity := 0.7 }
    [toGpu c2p] 0
    = { posx := 503, posy := 504, velx := 3, vely := 4, mass := 1 } := by
  have hr1 : List.range 1 = [0] := rfl
  rw [gpuKernel]
  rw [if_neg (by norm_num)]
  simp only [hr1, toGpu, c2p, normalizev, List.getD_cons_zero, List.foldl_cons,
    List.foldl_nil, eq_self_iff_true, if_true]
  norm_num [sqrt25, Real.sqrt_one, resolveAxisPos, resolveAxisVel]

lemma c2_gpu : gpuTick c2cfg 1000 1000 503 504 true [toGpu c2p]
    = [{ posx := 503, posy := 504, velx := 3, vely := 4, mass := 1 }] := by
  have h0 : gpuTick c2cfg 1000 1000 503 504 true [toGpu c2p]
      = [gpuKernel
          { G := 1, friction := 0, mousex := 503, mousey := 504,
            mouseStrength := 1250, particleCount := 1, width := 1000,
            height := 1000, dt := 0.5, elasticity := 0.7 }
          [toGpu c2p] 0] := rfl
  rw [h0, c2_kernel]

/-- Counterexample to C2: on the same one particle input with the same
active attractor, the sequential tick yields x velocity `30 / sqrt 125`
while the parallel kernel yields 3 (the kernel scales acceleration by
`dt = 0.5` and normalizes by the true distance, the sequential engine by
the softened one), so the two strategies are not numerically
identical. -/
theorem c2_cex :
    ¬ ((seqTick c2cfg 1000 1000 503 504 true [c2p]).getD 0 default).vx
        = ((gpuTick c2cfg 1000 1000 503 504 true [toGpu c2p]).getD 0
            default).velx := by
  rw [c2_seq, c2_gpu]
  simp only [List.getD_cons_zero]
  show ¬ (30 / Real.sqrt 125 : ℝ) = 3
  intro h
  apply sqrt125_ne_ten
  have hs : Real.sqrt 125 ≠ 0 := ne_of_gt sqrt125_pos
  field_simp at h
  linarith

lemma range_one : List.range 1 = [0] := rfl

lemma gpuKernel_single (par : SimParams) (g : GpuParticle)
    (hc : par.particleCount = 1) (hs : par.mouseStrength = 0) :
    gpuKernel par [g] 0
      = { posx := resolveAxisPos (Real.sqrt g.mass * 0.5)
            (par.width - Real.sqrt g.mass * 0.5)
            (g.posx + g.velx * (1 - par.friction)),
          posy := resolveAxisPos (Real.sqrt g.mass * 0.5)
            (par.height - Real.sqrt g.mass * 0.5)
            (g.posy + g.vely * (1 - par.friction)),
          velx := resolveAxisVel (Real.sqrt g.mass * 0.5)
            (par.width - Real.sqrt g.mass * 0.5)
            (g.posx + g.velx * (1 - par.friction))
            (g.velx * (1 - par.friction)) par.elasticity,
          vely := resolveAxisVel (Real.sqrt g.mass * 0.5)
            (par.height - Real.sqrt g.mass * 0.5)
            (g.posy + g.vely * (1 - par.friction))
            (g.vely * (1 - par.friction)) par.elasticity,
          mass := g.mass } := by
  rw [gpuKernel, if_neg (by rw [hc]; omega), hc, hs]
  simp only [range_one, List.getD_cons_zero, List.foldl_cons, List.foldl_nil,
    eq_self_iff_true, if_true, normalizev]
  norm_num

/-- C2 amended: the two strategies share the friction, position and
boundary treatment: on a single particle store with an inactive attractor
and the radius stored as `sqrt(mass)*0.5`, one parallel kernel tick
equals the sequential tick projected onto the shader record.  With any
force present they diverge (see the counterexample): the kernel scales
acceleration by `dt = 0.5` and normalizes force components by the true
distance, while the sequential engine uses a unit timestep and the
softened distance. -/
theorem c2_force_free_agree (cfg : SimulationConfig) (w h mx my : ℝ)
    (p : Particle) (hp : cfg.paused = false) (hc : cfg.particleCount = 1)
    (hr : p.radius = Real.sqrt p.mass * 0.5) :
    gpuTick cfg w h mx my false [toGpu p]
      = (seqTick cfg w h mx my false [p]).map toGpu := by
  have hseq : seqTick cfg w h mx my false [p] = step cfg w h [p] := rfl
  rw [hseq, step_unpaused _ _ _ _ hp, applyForces_single, List.map_cons,
    List.map_nil, List.map_cons, List.map_nil]
  have hpar : gpuTick cfg w h mx my false [toGpu p]
      = [gpuKernel
          { G := cfg.G, friction := cfg.friction, mousex := mx, mousey := my,
            mouseStrength := 0, particleCount := cfg.particleCount, width := w,
            height := h, dt := 0.5, elasticity := cfg.collisionElasticity }
          [toGpu p] 0] := by
    rw [gpuTick]
    rw [if_neg (by rw [hp]; simp)]
    rfl
  rw [hpar, gpuKernel_single _ _ hc rfl]
  simp only [toGpu, integrate]
  rw [← hr]

/-- Witness for the amended C2 on the concrete one particle state with
the mouse inactive. -/
theorem c2_force_free_agree_w :
    (c2cfg.paused = false ∧ c2cfg.particleCount = 1 ∧
     c2p.radius = Real.sqrt c2p.mass * 0.5) ∧
    gpuTick c2cfg 1000 1000 503 504 false [toGpu c2p]
      = (seqTick c2cfg 1000 1000 503 504 false [c2p]).map toGpu :=
  ⟨⟨rfl, rfl, rfl⟩,
   c2_force_free_agree c2cfg 1000 1000 503 504 c2p rfl rfl rfl⟩

end NewtonSim
